import Mathlib

/-!
# DataFortress audit core: shallow embedding and verification

This file embeds the classification/fusion core of the DataFortress auditor
(`src/datafortress/src/App.jsx`, duplicated in `src/unnamed/part_001`):
the three source classifiers (`analyzeSQL`, `analyzeAD`, `analyzeBackups`),
the fusion rule of `runAudit`, and the remediation-plan builder of the
report view, together with theorems about them.

Modelling conventions for the JavaScript source:
* a CSV record is a structure of `String` fields; a missing column is the
  empty string (the parser contract);
* JavaScript `parseInt` is `jsParseInt : String → Option Int`, `none`
  standing for `NaN` (comparisons against `NaN` are false);
* `Date` values are `Option Int` (milliseconds since the epoch), `none`
  standing for an Invalid Date; `Date` arithmetic propagates `none` the way
  JS propagates `NaN`, and `new Date(str)` is an abstract parameter
  `parseDate : String → Option Int` since JS date parsing is an external
  primitive;
* `Array.prototype.sort` with the comparator `(a, b) => b.date - a.date` is
  a stable insertion sort with the ES `SortCompare` rule that a `NaN`
  comparator result counts as `0` (for inconsistent comparators ES leaves
  the order implementation-defined; the embedding fixes this one behaviour);
* `String.prototype.toLowerCase` is modelled ASCII-wise by `Char.toLower`.
-/

namespace DataFortress

/-- Severity levels used by the classifiers and the fusion rule. -/
inductive Severity
  | UNKNOWN
  | LOW
  | MEDIUM
  | HIGH
  | CRITICAL
deriving DecidableEq, Repr, Fintype

/-- Status values of the backup verdict. -/
inductive BackupStatus
  | PASS
  | FAIL
  | UNKNOWN
deriving DecidableEq, Repr, Fintype

/-- One discrete flagged issue, as pushed onto a findings array. -/
structure Finding where
  type : Severity
  title : String
  desc : String
  impact : String
deriving DecidableEq, Repr

/-- A classifier verdict: aggregate risk plus findings. -/
structure SourceVerdict where
  risk : Severity
  findings : List Finding
deriving DecidableEq, Repr

/-- JS `toLowerCase`, modelled ASCII-wise (character-by-character over the
underlying character list). -/
def jsToLower (s : String) : String := ⟨s.data.map Char.toLower⟩

/-- `containsAux pat hay`: does `hay` have `pat` as a contiguous sublist? -/
def containsAux (pat : List Char) : List Char → Bool
  | [] => pat.isEmpty
  | c :: rest => pat.isPrefixOf (c :: rest) || containsAux pat rest

/-- JS `hay.includes(pat)`. -/
def strContains (hay pat : String) : Bool := containsAux pat.data hay.data

/-- Whitespace skipped by JS `parseInt`. -/
def isJsSpace (c : Char) : Bool :=
  c = ' ' || c = '\t' || c = '\n' || c = '\r' || c = '\x0b' || c = '\x0c'

/-- Value of a digit character under the given radix, if valid. -/
def digitValue (radix : Nat) (c : Char) : Option Nat :=
  let v : Nat :=
    if '0' ≤ c ∧ c ≤ '9' then c.toNat - '0'.toNat
    else if 'a' ≤ c ∧ c ≤ 'z' then c.toNat - 'a'.toNat + 10
    else if 'A' ≤ c ∧ c ≤ 'Z' then c.toNat - 'A'.toNat + 10
    else 99
  if v < radix then some v else none

/-- Accumulate the longest prefix of valid digits. -/
def takeDigits (radix : Nat) : Nat → List Char → Nat
  | acc, [] => acc
  | acc, c :: rest =>
    match digitValue radix c with
    | some v => takeDigits radix (acc * radix + v) rest
    | none => acc

/-- Parse a digit string; `none` when no leading digit is valid. -/
def parseDigitsOpt (radix : Nat) : List Char → Option Nat
  | [] => none
  | c :: rest =>
    match digitValue radix c with
    | some v => some (takeDigits radix v rest)
    | none => none

/-- JS `parseInt(s)` with the default-radix rules (decimal, `0x`/`0X` hex);
`none` is `NaN`. -/
def jsParseInt (s : String) : Option Int :=
  let cs := s.data.dropWhile isJsSpace
  let signAndRest : Int × List Char :=
    match cs with
    | '-' :: t => (-1, t)
    | '+' :: t => (1, t)
    | _ => (1, cs)
  let body := signAndRest.2
  let digits : Option Nat :=
    match body with
    | '0' :: c :: t =>
      if c = 'x' ∨ c = 'X' then parseDigitsOpt 16 t
      else parseDigitsOpt 10 body
    | _ => parseDigitsOpt 10 body
  digits.map (fun n => signAndRest.1 * (n : Int))

/-! ## SQL classifier (`analyzeSQL`) -/

/-- One SQL health-check row; a missing column is `""`. -/
structure SqlRecord where
  Priority : String
  Finding : String
  Details : String
  DatabaseName : String
deriving DecidableEq, Repr

/-- `parseInt(row.Priority || 999)`: an empty `Priority` is the falsy case. -/
def sqlPriority (r : SqlRecord) : Option Int :=
  if r.Priority = "" then some 999 else jsParseInt r.Priority

/-- `priority <= 50` with `NaN` comparing false. -/
def sqlActionable (r : SqlRecord) : Bool :=
  match sqlPriority r with
  | some v => v ≤ 50
  | none => false

/-- `row.DatabaseName || 'Unknown'`. -/
def sqlDbName (r : SqlRecord) : String :=
  if r.DatabaseName = "" then "Unknown" else r.DatabaseName

/-- The finding pushed for an actionable SQL row, by the branch taken on the
lower-cased `Finding` text. -/
def sqlRowFinding (r : SqlRecord) : Finding :=
  let findingText := jsToLower r.Finding
  let dbName := sqlDbName r
  if strContains findingText "backups not performed" then
    { type := Severity.CRITICAL
      title := "No Backups: " ++ dbName
      desc := "Database \x27" ++ dbName ++ "\x27 has not been backed up recently. " ++ r.Details
      impact := "Total data loss of recent transactions in event of crash." }
  else if strContains findingText "corruption check" then
    { type := Severity.HIGH
      title := "Corruption Risk: " ++ dbName
      desc := "DBCC CHECKDB never run on \x27" ++ dbName ++ "\x27."
      impact := "Database may contain silent corruption making backups useless." }
  else
    { type := Severity.MEDIUM
      title := "Config Issue: " ++ findingText
      desc := r.Details
      impact := "Performance or stability risk." }

/-- The sequential risk reassignment of `analyzeSQL` for one actionable row:
`riskLevel = 'CRITICAL'`, `if (riskLevel !== 'CRITICAL') riskLevel = 'HIGH'`,
`if (riskLevel === 'LOW') riskLevel = 'MEDIUM'` by branch. -/
def sqlEscalate (a : Severity) (r : SqlRecord) : Severity :=
  let findingText := jsToLower r.Finding
  if strContains findingText "backups not performed" then Severity.CRITICAL
  else if strContains findingText "corruption check" then
    if a = Severity.CRITICAL then a else Severity.HIGH
  else
    if a = Severity.LOW then Severity.MEDIUM else a

/-- Body of the `data.forEach` loop of `analyzeSQL`. -/
def analyzeSQLStep (acc : Severity × List Finding) (r : SqlRecord) :
    Severity × List Finding :=
  if sqlActionable r then (sqlEscalate acc.1 r, acc.2 ++ [sqlRowFinding r])
  else acc

/-- `analyzeSQL`; `none` is a `null` upload slot. -/
def analyzeSQL (data : Option (List SqlRecord)) : SourceVerdict :=
  match data with
  | none => { risk := Severity.UNKNOWN, findings := [] }
  | some l =>
    if l.isEmpty then { risk := Severity.UNKNOWN, findings := [] }
    else
      let res := l.foldl analyzeSQLStep (Severity.LOW, [])
      { risk := res.1, findings := res.2 }

/-! ## AD classifier (`analyzeAD`) -/

/-- One AD group-membership row; a missing column is `""`. -/
structure AdRecord where
  GroupName : String
  Name : String
  SamAccountName : String
deriving DecidableEq, Repr

/-- The fixed red-flag keyword list. -/
def redFlagKeywords : List String :=
  ["temp", "scanner", "backup", "service", "test", "msp", "vendor", "printer", "copy"]

/-- The space-joined search string `` `${name} ${sam}` `` over the
lower-cased fields. -/
def adCombinedSearch (r : AdRecord) : String :=
  jsToLower r.Name ++ " " ++ jsToLower r.SamAccountName

/-- Does a row trigger the AD rule: admin group and a red-flag keyword in the
combined search string? -/
def adMatches (r : AdRecord) : Bool :=
  strContains (jsToLower r.GroupName) "admin" &&
    redFlagKeywords.any (fun kw => strContains (adCombinedSearch r) kw)

/-- The finding pushed for a matching AD row. -/
def adFinding (r : AdRecord) : Finding :=
  { type := Severity.CRITICAL
    title := "Unsecured Admin: " ++ r.SamAccountName
    desc := "Account \x27" ++ r.Name ++ "\x27 is in \x27" ++ r.GroupName ++
      "\x27. This appears to be a service or generic account."
    impact := "High risk of credential theft. Service accounts should not be Domain Admins." }

/-- Body of the `data.forEach` loop of `analyzeAD`. -/
def analyzeADStep (acc : Severity × List Finding) (r : AdRecord) :
    Severity × List Finding :=
  if adMatches r then (Severity.CRITICAL, acc.2 ++ [adFinding r])
  else acc

/-- `analyzeAD`; `none` is a `null` upload slot. -/
def analyzeAD (data : Option (List AdRecord)) : SourceVerdict :=
  match data with
  | none => { risk := Severity.UNKNOWN, findings := [] }
  | some l =>
    if l.isEmpty then { risk := Severity.UNKNOWN, findings := [] }
    else
      let res := l.foldl analyzeADStep (Severity.LOW, [])
      { risk := res.1, findings := res.2 }

/-! ## Backup classifier (`analyzeBackups`) -/

/-- One backup log row; a missing column is `""`. -/
structure BackupRecord where
  TimeCreated : String
  TimeGenerated : String
  Message : String
deriving DecidableEq, Repr

/-- `row.TimeCreated || row.TimeGenerated || row['TimeCreated'] || ''`
(the third disjunct repeats the first and is absorbed). -/
def backupTimeStr (r : BackupRecord) : String :=
  if r.TimeCreated ≠ "" then r.TimeCreated
  else if r.TimeGenerated ≠ "" then r.TimeGenerated
  else ""

/-- One element of `cleanData`: a parsed date (`none` = Invalid Date) and the
lower-cased message. -/
structure BackupEntry where
  date : Option Int
  message : String
deriving DecidableEq, Repr

/-- Build a `cleanData` entry from a row, given the abstract date parser. -/
def mkEntry (parseDate : String → Option Int) (r : BackupRecord) : BackupEntry :=
  { date := parseDate (backupTimeStr r), message := jsToLower r.Message }

/-- The comparator `(a, b) => b.date - a.date` with the ES `SortCompare`
rule that a `NaN` result counts as `+0`. -/
def jsCmpDesc (a b : BackupEntry) : Int :=
  match b.date, a.date with
  | some x, some y => x - y
  | _, _ => 0

/-- Insert an element after every element it does not strictly precede
(stable insertion). -/
def insertDesc (e : BackupEntry) : List BackupEntry → List BackupEntry
  | [] => [e]
  | x :: xs => if jsCmpDesc e x < 0 then e :: x :: xs else x :: insertDesc e xs

/-- Stable sort by the JS comparator (descending date). -/
def sortJs (l : List BackupEntry) : List BackupEntry :=
  l.foldl (fun acc e => insertDesc e acc) []

/-- JS `>` on `Date` values: false whenever either side is Invalid (`NaN`). -/
def jsGtDate (a b : Option Int) : Bool :=
  match a, b with
  | some x, some y => x > y
  | _, _ => false

/-- `message.includes('successfully') || message.includes('succeeded')`. -/
def isSuccessMsg (m : String) : Bool :=
  strContains m "successfully" || strContains m "succeeded"

/-- `message.includes('fail') || message.includes('error')`. -/
def isFailMsg (m : String) : Bool :=
  strContains m "fail" || strContains m "error"

/-- `!lastSuccessDate || row.date > lastSuccessDate`: the outer `Option` is
`null` vs a Date object (a JS Invalid Date object is still truthy). -/
def afterLastSuccess (lastSuccessDate : Option (Option Int)) (d : Option Int) : Bool :=
  match lastSuccessDate with
  | none => true
  | some s => jsGtDate d s

/-- JS `>` between a possibly-`NaN` number and a constant. -/
def jsGtQ (g : Option ℚ) (t : ℚ) : Bool :=
  match g with
  | some x => x > t
  | none => false

/-- The backup verdict. `gapHours` is `hoursGap` (`none` = `NaN`);
`lastSuccess`/`latestLog` are `null` (`none`) or a Date object
(`some`, itself possibly Invalid). -/
structure BackupVerdict where
  status : BackupStatus
  gapHours : Option ℚ
  lastSuccess : Option (Option Int)
  latestLog : Option (Option Int)
  failCount : Nat
deriving DecidableEq, Repr

/-- The verdict returned for a `null` or empty upload slot. -/
def emptyBackupVerdict : BackupVerdict :=
  { status := BackupStatus.UNKNOWN, gapHours := some 0, lastSuccess := none,
    latestLog := none, failCount := 0 }

/-- `analyzeBackups`, parameterised by the JS date parser. For non-empty
input `cleanData` is non-empty, so `latestLogDate` is always a Date object
(truthy even when Invalid) and the `|| now` wall-clock fallback of
`refTime` is unreachable; the model therefore needs no clock. -/
def analyzeBackups (parseDate : String → Option Int)
    (data : Option (List BackupRecord)) : BackupVerdict :=
  match data with
  | none => emptyBackupVerdict
  | some l =>
    if l.isEmpty then emptyBackupVerdict
    else
      let cleanData := sortJs (l.map (mkEntry parseDate))
      let latestLogDate : Option (Option Int) := cleanData.head?.map BackupEntry.date
      let successRow := cleanData.find? (fun e => isSuccessMsg e.message)
      let lastSuccessDate : Option (Option Int) := successRow.map BackupEntry.date
      let failCount := cleanData.countP
        (fun e => isFailMsg e.message && afterLastSuccess lastSuccessDate e.date)
      let refTime : Option Int := (latestLogDate.getD none)
      let compareTime : Option Int :=
        match lastSuccessDate with
        | none => some 0
        | some d => d
      let diffMs : Option Int :=
        match refTime, compareTime with
        | some a, some b => some (a - b)
        | _, _ => none
      let hoursGap : Option ℚ := diffMs.map (fun d => (d : ℚ) / 3600000)
      { status := if jsGtQ hoursGap 24 then BackupStatus.FAIL else BackupStatus.PASS
        gapHours := hoursGap
        lastSuccess := lastSuccessDate
        latestLog := latestLogDate
        failCount := failCount }

/-! ## Fusion engine (`runAudit`) and remediation plan -/

/-- The final report assembled by `runAudit`. -/
structure Report where
  sql : SourceVerdict
  ad : SourceVerdict
  backup : BackupVerdict
  overall : Severity
deriving DecidableEq, Repr

/-- The sequential overall-risk reassignment of `runAudit`:
`overall = 'LOW'`, then the `MEDIUM`, `HIGH` and `CRITICAL` checks in
textual order, each overwriting the previous value when it fires. -/
def fuseOverall (sqlRisk adRisk : Severity) (backupStatus : BackupStatus) : Severity :=
  let overall := Severity.LOW
  let overall := if sqlRisk = Severity.MEDIUM ∨ adRisk = Severity.MEDIUM
    then Severity.MEDIUM else overall
  let overall := if sqlRisk = Severity.HIGH ∨ adRisk = Severity.HIGH
    then Severity.HIGH else overall
  let overall := if sqlRisk = Severity.CRITICAL ∨ adRisk = Severity.CRITICAL ∨
      backupStatus = BackupStatus.FAIL
    then Severity.CRITICAL else overall
  overall

/-- `runAudit`: run the three classifiers and fuse. -/
def runAudit (parseDate : String → Option Int)
    (sqlData : Option (List SqlRecord)) (adData : Option (List AdRecord))
    (backupData : Option (List BackupRecord)) : Report :=
  let sqlAnalysis := analyzeSQL sqlData
  let adAnalysis := analyzeAD adData
  let backupAnalysis := analyzeBackups parseDate backupData
  { sql := sqlAnalysis
    ad := adAnalysis
    backup := backupAnalysis
    overall := fuseOverall sqlAnalysis.risk adAnalysis.risk backupAnalysis.status }

/-- The four remediation-plan entries of the report view
(`src/unnamed/part_001`, "Top 3 Immediate Actions" plus the fallback). -/
inductive PlanItem
  | emergencyBackupRun
  | lockDownAdminAccounts
  | runDbccCheckdb
  | scheduleQuarterlyReview
deriving DecidableEq, Repr

/-- The remediation plan as rendered by the report view of
`src/unnamed/part_001` (lines 778-815): the three conditional priority
items in textual order, then the fallback block, which is rendered whenever
`report.overall !== 'CRITICAL'`. -/
def remediationPlan (report : Report) : List PlanItem :=
  (if report.backup.status = BackupStatus.FAIL then [PlanItem.emergencyBackupRun] else []) ++
  (if report.ad.findings ≠ [] then [PlanItem.lockDownAdminAccounts] else []) ++
  (if report.sql.findings ≠ [] then [PlanItem.runDbccCheckdb] else []) ++
  (if report.overall ≠ Severity.CRITICAL then [PlanItem.scheduleQuarterlyReview] else [])

/-! ## Specification-side definitions (for the refinement claims) -/

/-- Rank of a severity under `UNKNOWN < LOW < MEDIUM < HIGH < CRITICAL`. -/
def sevRank : Severity → Nat
  | Severity.UNKNOWN => 0
  | Severity.LOW => 1
  | Severity.MEDIUM => 2
  | Severity.HIGH => 3
  | Severity.CRITICAL => 4

/-- Maximum of two severities under `sevRank`. -/
def sevMax (a b : Severity) : Severity := if sevRank a < sevRank b then b else a

/-- `UNKNOWN` counted as `LOW`, as the spec's maximum demands. -/
def effSeverity : Severity → Severity
  | Severity.UNKNOWN => Severity.LOW
  | s => s

/-- Modelled from the spec's words (§4.4): `overall = max(sqlRisk, adRisk,
backupStatus == FAIL ? CRITICAL : LOW)` with `UNKNOWN` treated as `LOW`. -/
def specOverall (s a : Severity) (b : BackupStatus) : Severity :=
  sevMax (effSeverity s)
    (sevMax (effSeverity a)
      (if b = BackupStatus.FAIL then Severity.CRITICAL else Severity.LOW))

/-! ## Helper lemmas -/

/-- A fold by a left-commutative function is invariant under permutation. -/
theorem foldl_perm_of_lcomm {α : Type u_1} {β : Type u_2} (f : β → α → β)
    (hf : ∀ b x y, f (f b x) y = f (f b y) x) :
    ∀ {l l' : List α}, l.Perm l' → ∀ b, l.foldl f b = l'.foldl f b := by
  intro l l' h
  induction h with
  | nil => intro b; rfl
  | cons x _ ih => intro b; simp only [List.foldl_cons]; exact ih _
  | swap x y l => intro b; simp only [List.foldl_cons]; rw [hf]
  | trans _ _ ih₁ ih₂ => intro b; rw [ih₁, ih₂]

/-- `risk`-only view of the SQL loop body. -/
def sqlRiskStep (a : Severity) (r : SqlRecord) : Severity :=
  if sqlActionable r then sqlEscalate a r else a

/-- The branch class an SQL row contributes to the risk accumulator:
`none` when not actionable, otherwise the branch severity. -/
def sqlClass (r : SqlRecord) : Option Severity :=
  if sqlActionable r then
    some (if strContains (jsToLower r.Finding) "backups not performed" then Severity.CRITICAL
      else if strContains (jsToLower r.Finding) "corruption check" then Severity.HIGH
      else Severity.MEDIUM)
  else none

/-- Abstract escalation on a branch class. -/
def applyCls (a : Severity) : Option Severity → Severity
  | none => a
  | some Severity.CRITICAL => Severity.CRITICAL
  | some Severity.HIGH => if a = Severity.CRITICAL then a else Severity.HIGH
  | some Severity.MEDIUM => if a = Severity.LOW then Severity.MEDIUM else a
  | some _ => a

theorem sqlRiskStep_eq_applyCls (a : Severity) (r : SqlRecord) :
    sqlRiskStep a r = applyCls a (sqlClass r) := by
  unfold sqlRiskStep sqlClass sqlEscalate applyCls
  by_cases hact : sqlActionable r
  · by_cases h1 : strContains (jsToLower r.Finding) "backups not performed" <;>
      by_cases h2 : strContains (jsToLower r.Finding) "corruption check" <;>
      cases a <;> simp [hact, h1, h2]
  · simp [hact]

theorem applyCls_lcomm :
    ∀ (a : Severity) (c d : Option Severity),
      applyCls (applyCls a c) d = applyCls (applyCls a d) c := by decide

theorem sqlRiskStep_lcomm (b : Severity) (x y : SqlRecord) :
    sqlRiskStep (sqlRiskStep b x) y = sqlRiskStep (sqlRiskStep b y) x := by
  rw [sqlRiskStep_eq_applyCls, sqlRiskStep_eq_applyCls, sqlRiskStep_eq_applyCls,
    sqlRiskStep_eq_applyCls]
  exact applyCls_lcomm b (sqlClass x) (sqlClass y)

/-- The risk component of the SQL fold ignores the findings component. -/
theorem sql_foldl_fst (l : List SqlRecord) :
    ∀ acc : Severity × List Finding,
      (l.foldl analyzeSQLStep acc).1 = l.foldl sqlRiskStep acc.1 := by
  induction l with
  | nil => intro acc; rfl
  | cons x xs ih =>
    intro acc
    simp only [List.foldl_cons, ih]
    congr 1
    unfold analyzeSQLStep sqlRiskStep
    by_cases h : sqlActionable x <;> simp [h]

/-- The finding pushed for an actionable SQL row, as an `Option`. -/
def sqlFindingOpt (r : SqlRecord) : Option Finding :=
  if sqlActionable r then some (sqlRowFinding r) else none

/-- The findings component of the SQL fold is a `filterMap` of the input. -/
theorem sql_foldl_snd (l : List SqlRecord) :
    ∀ acc : Severity × List Finding,
      (l.foldl analyzeSQLStep acc).2 = acc.2 ++ l.filterMap sqlFindingOpt := by
  induction l with
  | nil => intro acc; simp
  | cons x xs ih =>
    intro acc
    simp only [List.foldl_cons, ih, List.filterMap_cons]
    unfold analyzeSQLStep sqlFindingOpt
    by_cases h : sqlActionable x <;> simp [h]

/-- Does an SQL row trigger the `CRITICAL` branch? -/
def sqlHit (r : SqlRecord) : Bool :=
  sqlActionable r && strContains (jsToLower r.Finding) "backups not performed"

theorem sqlRiskStep_critical (a : Severity) (r : SqlRecord) :
    sqlRiskStep a r = Severity.CRITICAL ↔
      a = Severity.CRITICAL ∨ sqlHit r = true := by
  unfold sqlRiskStep sqlEscalate sqlHit
  by_cases hact : sqlActionable r
  · by_cases h1 : strContains (jsToLower r.Finding) "backups not performed" <;>
      by_cases h2 : strContains (jsToLower r.Finding) "corruption check" <;>
      cases a <;> simp [hact, h1, h2]
  · simp [hact]

theorem sql_foldl_risk_critical (l : List SqlRecord) :
    ∀ a : Severity, l.foldl sqlRiskStep a = Severity.CRITICAL ↔
      a = Severity.CRITICAL ∨ ∃ r ∈ l, sqlHit r = true := by
  induction l with
  | nil => simp
  | cons x xs ih =>
    intro a
    simp only [List.foldl_cons, ih, sqlRiskStep_critical, List.mem_cons]
    constructor
    · rintro ((ha | hx) | ⟨r, hr, hhit⟩)
      · exact Or.inl ha
      · exact Or.inr ⟨x, Or.inl rfl, hx⟩
      · exact Or.inr ⟨r, Or.inr hr, hhit⟩
    · rintro (ha | ⟨r, (rfl | hr), hhit⟩)
      · exact Or.inl (Or.inl ha)
      · exact Or.inl (Or.inr hhit)
      · exact Or.inr ⟨r, hr, hhit⟩

/-! ## C1: fusion equals the spec maximum -/

/-- C1: for every triple of classifier outputs, the fused overall severity
equals `max(sqlRisk, adRisk, backupStatus == FAIL ? CRITICAL : LOW)` under
the order `LOW < MEDIUM < HIGH < CRITICAL` with `UNKNOWN` counted as `LOW`;
in particular `overall ≥ max(sql.risk, ad.risk)` and `overall = CRITICAL`
whenever the backup status is `FAIL`. -/
theorem fusion_overall_is_spec_max :
    ∀ (s a : Severity) (b : BackupStatus),
      fuseOverall s a b = specOverall s a b ∧
      max (sevRank s) (sevRank a) ≤ sevRank (fuseOverall s a b) ∧
      (b = BackupStatus.FAIL → fuseOverall s a b = Severity.CRITICAL) := by decide

/-- Witness for C1 at a concrete triple with a failing backup status. -/
theorem fusion_overall_is_spec_max_witness :
    fuseOverall Severity.LOW Severity.LOW BackupStatus.FAIL = Severity.CRITICAL :=
  (fusion_overall_is_spec_max Severity.LOW Severity.LOW BackupStatus.FAIL).2.2 rfl

/-! ## C2: SQL risk is CRITICAL iff an actionable backups-not-performed row exists -/

/-- C2: for every sequence of SQL records, the verdict risk is `CRITICAL`
iff at least one actionable record (its `Priority` parses to an integer
`≤ 50`) has a `Finding` text containing "backups not performed"
case-insensitively. -/
theorem sql_risk_critical_iff (data : List SqlRecord) :
    (analyzeSQL (some data)).risk = Severity.CRITICAL ↔
      ∃ r ∈ data, sqlActionable r = true ∧
        strContains (jsToLower r.Finding) "backups not performed" = true := by
  cases data with
  | nil => simp [analyzeSQL]
  | cons x xs =>
    have hrisk : (analyzeSQL (some (x :: xs))).risk =
        (x :: xs).foldl sqlRiskStep Severity.LOW := by
      simp only [analyzeSQL, List.isEmpty_cons, Bool.false_eq_true, if_false]
      exact sql_foldl_fst (x :: xs) (Severity.LOW, [])
    rw [hrisk, sql_foldl_risk_critical]
    simp [sqlHit, Bool.and_eq_true]

/-- Witness for C2: one concrete actionable backups-not-performed record
forces a `CRITICAL` verdict. -/
theorem sql_risk_critical_iff_witness :
    (analyzeSQL (some [⟨"10", "Backups not performed", "", "HR"⟩])).risk =
      Severity.CRITICAL :=
  (sql_risk_critical_iff [⟨"10", "Backups not performed", "", "HR"⟩]).mpr
    ⟨⟨"10", "Backups not performed", "", "HR"⟩, by decide, by decide, by decide⟩

/-! ## C3: SQL analysis is order-independent up to findings order -/

/-- C3: for every sequence of SQL records and every permutation of it,
`analyzeSQL` produces the same final risk level, and the findings lists of
the two runs are permutations of one another. -/
theorem sql_risk_perm_invariant (l l' : List SqlRecord) (h : l.Perm l') :
    (analyzeSQL (some l)).risk = (analyzeSQL (some l')).risk ∧
      ((analyzeSQL (some l)).findings).Perm ((analyzeSQL (some l')).findings) := by
  by_cases hl : l = []
  · have hl' : l' = [] := by
      subst hl
      exact h.symm.eq_nil
    subst hl hl'
    exact ⟨rfl, List.Perm.refl _⟩
  · have hl' : l' ≠ [] := by
      intro hcon
      exact hl (hcon ▸ h : l.Perm []).eq_nil
    constructor
    · have h1 : (analyzeSQL (some l)).risk = l.foldl sqlRiskStep Severity.LOW := by
        simp only [analyzeSQL, List.isEmpty_eq_true, hl, if_false]
        exact sql_foldl_fst l (Severity.LOW, [])
      have h2 : (analyzeSQL (some l')).risk = l'.foldl sqlRiskStep Severity.LOW := by
        simp only [analyzeSQL, List.isEmpty_eq_true, hl', if_false]
        exact sql_foldl_fst l' (Severity.LOW, [])
      rw [h1, h2, foldl_perm_of_lcomm sqlRiskStep sqlRiskStep_lcomm h]
    · have h1 : (analyzeSQL (some l)).findings = l.filterMap sqlFindingOpt := by
        simp only [analyzeSQL, List.isEmpty_eq_true, hl, if_false]
        exact sql_foldl_snd l (Severity.LOW, [])
      have h2 : (analyzeSQL (some l')).findings = l'.filterMap sqlFindingOpt := by
        simp only [analyzeSQL, List.isEmpty_eq_true, hl', if_false]
        exact sql_foldl_snd l' (Severity.LOW, [])
      rw [h1, h2]
      exact h.filterMap sqlFindingOpt

/-- Witness for C3 on a concrete two-element permutation. -/
theorem sql_risk_perm_invariant_witness :
    (analyzeSQL (some [⟨"10", "Backups not performed", "", "HR"⟩,
        ⟨"20", "Corruption check skipped", "", "Inv"⟩])).risk =
      (analyzeSQL (some [⟨"20", "Corruption check skipped", "", "Inv"⟩,
        ⟨"10", "Backups not performed", "", "HR"⟩])).risk ∧
    ((analyzeSQL (some [⟨"10", "Backups not performed", "", "HR"⟩,
        ⟨"20", "Corruption check skipped", "", "Inv"⟩])).findings).Perm
      ((analyzeSQL (some [⟨"20", "Corruption check skipped", "", "Inv"⟩,
        ⟨"10", "Backups not performed", "", "HR"⟩])).findings) :=
  sql_risk_perm_invariant
    [⟨"10", "Backups not performed", "", "HR"⟩, ⟨"20", "Corruption check skipped", "", "Inv"⟩]
    [⟨"20", "Corruption check skipped", "", "Inv"⟩, ⟨"10", "Backups not performed", "", "HR"⟩]
    (List.Perm.swap _ _ _)

/-! ## C4: AD classifier characterization -/

/-- `risk`-only view of the AD loop body. -/
def adRiskStep (a : Severity) (r : AdRecord) : Severity :=
  if adMatches r then Severity.CRITICAL else a

/-- The risk component of the AD fold ignores the findings component. -/
theorem ad_foldl_fst (l : List AdRecord) :
    ∀ acc : Severity × List Finding,
      (l.foldl analyzeADStep acc).1 = l.foldl adRiskStep acc.1 := by
  induction l with
  | nil => intro acc; rfl
  | cons x xs ih =>
    intro acc
    simp only [List.foldl_cons, ih]
    congr 1
    unfold analyzeADStep adRiskStep
    by_cases h : adMatches x <;> simp [h]

/-- The findings component of the AD fold maps the matching rows. -/
theorem ad_foldl_snd (l : List AdRecord) :
    ∀ acc : Severity × List Finding,
      (l.foldl analyzeADStep acc).2 =
        acc.2 ++ (l.filter (fun r => adMatches r)).map adFinding := by
  induction l with
  | nil => intro acc; simp
  | cons x xs ih =>
    intro acc
    simp only [List.foldl_cons, ih, List.filter_cons]
    unfold analyzeADStep
    by_cases h : adMatches x <;> simp [h]

theorem ad_foldl_risk_critical (l : List AdRecord) :
    ∀ a : Severity, l.foldl adRiskStep a = Severity.CRITICAL ↔
      a = Severity.CRITICAL ∨ ∃ r ∈ l, adMatches r = true := by
  induction l with
  | nil => simp
  | cons x xs ih =>
    intro a
    have hstep : adRiskStep a x = Severity.CRITICAL ↔
        a = Severity.CRITICAL ∨ adMatches x = true := by
      unfold adRiskStep
      by_cases h : adMatches x <;> simp [h]
    simp only [List.foldl_cons, ih, hstep, List.mem_cons]
    constructor
    · rintro ((ha | hx) | ⟨r, hr, hm⟩)
      · exact Or.inl ha
      · exact Or.inr ⟨x, Or.inl rfl, hx⟩
      · exact Or.inr ⟨r, Or.inr hr, hm⟩
    · rintro (ha | ⟨r, (rfl | hr), hm⟩)
      · exact Or.inl (Or.inl ha)
      · exact Or.inl (Or.inr hm)
      · exact Or.inr ⟨r, hr, hm⟩

/-- C4 counterexample: the claim reads the search string as the plain
concatenation `Name ++ SamAccountName`. The code searches
`` `${name} ${sam}` `` instead, so a keyword spanning the boundary
(`Name = "tem"`, `SamAccountName = "p"` in an admin group) satisfies the
claim's condition while the code emits no finding and leaves risk `LOW`. -/
theorem ad_concat_claim_counterexample :
    strContains (jsToLower (AdRecord.GroupName ⟨"Admins", "tem", "p"⟩)) "admin" = true ∧
    strContains (jsToLower ("tem" ++ "p")) "temp" = true ∧
    "temp" ∈ redFlagKeywords ∧
    (analyzeAD (some [⟨"Admins", "tem", "p"⟩])).findings = [] ∧
    (analyzeAD (some [⟨"Admins", "tem", "p"⟩])).risk = Severity.LOW := by decide

/-- C4 amended: a finding is emitted for a row iff its `GroupName` contains
"admin" case-insensitively and the space-separated concatenation
`` `${Name} ${SamAccountName}` `` contains a red-flag keyword
case-insensitively; each emitted finding is `CRITICAL` and titled
"Unsecured Admin: {SamAccountName}"; risk is `CRITICAL` iff a row matches,
`LOW` when the input is non-empty without a match, `UNKNOWN` when empty. -/
theorem ad_rule_characterization (data : List AdRecord) :
    ((analyzeAD (some data)).findings =
      (data.filter (fun r => adMatches r)).map adFinding) ∧
    (∀ r : AdRecord, (adFinding r).type = Severity.CRITICAL ∧
      (adFinding r).title = "Unsecured Admin: " ++ r.SamAccountName) ∧
    ((analyzeAD (some data)).risk = Severity.CRITICAL ↔
      ∃ r ∈ data, adMatches r = true) ∧
    (data ≠ [] → (∀ r ∈ data, adMatches r = false) →
      (analyzeAD (some data)).risk = Severity.LOW) ∧
    (data = [] → (analyzeAD (some data)).risk = Severity.UNKNOWN) := by
  refine ⟨?_, ?_, ?_, ?_, ?_⟩
  · cases data with
    | nil => simp [analyzeAD]
    | cons x xs =>
      simp only [analyzeAD, List.isEmpty_cons, Bool.false_eq_true, if_false]
      exact ad_foldl_snd (x :: xs) (Severity.LOW, [])
  · intro r
    exact ⟨rfl, rfl⟩
  · cases data with
    | nil => simp [analyzeAD]
    | cons x xs =>
      have hrisk : (analyzeAD (some (x :: xs))).risk =
          (x :: xs).foldl adRiskStep Severity.LOW := by
        simp only [analyzeAD, List.isEmpty_cons, Bool.false_eq_true, if_false]
        exact ad_foldl_fst (x :: xs) (Severity.LOW, [])
      rw [hrisk, ad_foldl_risk_critical]
      simp
  · intro hne hall
    cases data with
    | nil => exact absurd rfl hne
    | cons x xs =>
      have hrisk : (analyzeAD (some (x :: xs))).risk =
          (x :: xs).foldl adRiskStep Severity.LOW := by
        simp only [analyzeAD, List.isEmpty_cons, Bool.false_eq_true, if_false]
        exact ad_foldl_fst (x :: xs) (Severity.LOW, [])
      rw [hrisk]
      have : ∀ (l : List AdRecord) (a : Severity), (∀ r ∈ l, adMatches r = false) →
          l.foldl adRiskStep a = a := by
        intro l
        induction l with
        | nil => intro a _; rfl
        | cons y ys ih =>
          intro a hall'
          simp only [List.foldl_cons]
          have hy : adMatches y = false := hall' y (List.mem_cons_self y ys)
          have : adRiskStep a y = a := by unfold adRiskStep; simp [hy]
          rw [this]
          exact ih a (fun r hr => hall' r (List.mem_cons_of_mem y hr))
      exact this (x :: xs) Severity.LOW hall
  · intro h
    subst h
    rfl

/-- Witness for C4 on the spec's own example rows: `svc_backup` in
"Domain Admins" yields risk `CRITICAL`, while `jane.doe` alone yields
risk `LOW`. -/
theorem ad_rule_characterization_witness :
    (analyzeAD (some [⟨"Domain Admins", "Jane Doe", "jane.doe"⟩])).risk = Severity.LOW ∧
    (analyzeAD (some [⟨"Domain Admins", "Backup Service", "svc_backup"⟩])).risk =
      Severity.CRITICAL :=
  ⟨(ad_rule_characterization [⟨"Domain Admins", "Jane Doe", "jane.doe"⟩]).2.2.2.1
      (by decide) (by decide),
    (ad_rule_characterization [⟨"Domain Admins", "Backup Service", "svc_backup"⟩]).2.2.1.mpr
      ⟨⟨"Domain Admins", "Backup Service", "svc_backup"⟩, by decide, by decide⟩⟩

/-! ## Backup lemmas and C5, C6, C10 -/

theorem insertDesc_perm (e : BackupEntry) :
    ∀ l : List BackupEntry, (insertDesc e l).Perm (e :: l) := by
  intro l
  induction l with
  | nil => exact List.Perm.refl _
  | cons x xs ih =>
    unfold insertDesc
    by_cases h : jsCmpDesc e x < 0
    · simp only [h, if_true]
      exact List.Perm.refl _
    · simp only [h, if_false]
      exact (ih.cons x).trans (List.Perm.swap e x xs)

theorem foldl_insertDesc_perm :
    ∀ l acc : List BackupEntry,
      (l.foldl (fun acc e => insertDesc e acc) acc).Perm (acc ++ l) := by
  intro l
  induction l with
  | nil => intro acc; simp
  | cons x xs ih =>
    intro acc
    simp only [List.foldl_cons]
    refine (ih (insertDesc x acc)).trans ?_
    refine (List.Perm.append_right xs (insertDesc_perm x acc)).trans ?_
    exact List.perm_middle.symm

/-- The JS sort is a permutation of its input. -/
theorem sortJs_perm (l : List BackupEntry) : (sortJs l).Perm l := by
  unfold sortJs
  simpa using foldl_insertDesc_perm l []

/-- For non-empty input the backup status is the 24-hour test on the very
gap the verdict reports. -/
theorem backup_status_eq (pd : String → Option Int) (x : BackupRecord)
    (xs : List BackupRecord) :
    (analyzeBackups pd (some (x :: xs))).status =
      if jsGtQ (analyzeBackups pd (some (x :: xs))).gapHours 24 then BackupStatus.FAIL
      else BackupStatus.PASS := rfl

/-- C5: for every non-empty sequence of backup records the status is `FAIL`
exactly when the reported hours-since-success exceeds 24 and `PASS`
otherwise; for an empty or absent input the status is `UNKNOWN`. -/
theorem backup_status_threshold (pd : String → Option Int) (data : List BackupRecord) :
    (data ≠ [] →
      ((analyzeBackups pd (some data)).status = BackupStatus.FAIL ↔
        ∃ g : ℚ, (analyzeBackups pd (some data)).gapHours = some g ∧ 24 < g) ∧
      ((analyzeBackups pd (some data)).status = BackupStatus.PASS ↔
        ¬ ∃ g : ℚ, (analyzeBackups pd (some data)).gapHours = some g ∧ 24 < g)) ∧
    (analyzeBackups pd (some [])).status = BackupStatus.UNKNOWN ∧
    (analyzeBackups pd none).status = BackupStatus.UNKNOWN := by
  refine ⟨?_, rfl, rfl⟩
  intro h
  cases data with
  | nil => exact absurd rfl h
  | cons x xs =>
    rw [backup_status_eq]
    generalize (analyzeBackups pd (some (x :: xs))).gapHours = g0
    cases g0 with
    | none => simp [jsGtQ]
    | some q =>
      by_cases hq : (24 : ℚ) < q
      · simp [jsGtQ, hq]
      · simp [jsGtQ, hq]

/-- Witness for C5 on a concrete two-record log, discharging the
non-emptiness hypothesis. -/
theorem backup_status_threshold_witness :
    ((analyzeBackups (fun s => if s = "t30" then some 108000000 else some 0)
        (some [⟨"t30", "", "x"⟩, ⟨"t0", "", "backup completed successfully"⟩])).status =
      BackupStatus.FAIL ↔
      ∃ g : ℚ, (analyzeBackups (fun s => if s = "t30" then some 108000000 else some 0)
        (some [⟨"t30", "", "x"⟩, ⟨"t0", "", "backup completed successfully"⟩])).gapHours =
          some g ∧ 24 < g) ∧
    ((analyzeBackups (fun s => if s = "t30" then some 108000000 else some 0)
        (some [⟨"t30", "", "x"⟩, ⟨"t0", "", "backup completed successfully"⟩])).status =
      BackupStatus.PASS ↔
      ¬ ∃ g : ℚ, (analyzeBackups (fun s => if s = "t30" then some 108000000 else some 0)
        (some [⟨"t30", "", "x"⟩, ⟨"t0", "", "backup completed successfully"⟩])).gapHours =
          some g ∧ 24 < g) :=
  (backup_status_threshold (fun s => if s = "t30" then some 108000000 else some 0)
      [⟨"t30", "", "x"⟩, ⟨"t0", "", "backup completed successfully"⟩]).1
    (by decide)

/-- C6: `failureCountSinceSuccess` counts exactly the records whose message
contains "fail" or "error" case-insensitively and whose timestamp is
strictly after the reported last-success timestamp — all such records when
no success row was found; rows with unparseable timestamps stay in the scan
and compare as never-after (JS `NaN` comparisons). -/
theorem backup_failure_count_spec (pd : String → Option Int) (data : List BackupRecord) :
    (analyzeBackups pd (some data)).failCount =
      data.countP (fun r => isFailMsg (jsToLower r.Message) &&
        afterLastSuccess (analyzeBackups pd (some data)).lastSuccess
          (pd (backupTimeStr r))) := by
  cases data with
  | nil => rfl
  | cons x xs =>
    simp only [analyzeBackups, List.isEmpty_cons, Bool.false_eq_true, if_false]
    rw [List.Perm.countP_eq _ (sortJs_perm ((x :: xs).map (mkEntry pd)))]
    rw [List.countP_map]
    rfl

/-- C10: for a non-empty input whose computed hours gap is not a number
(the reference or success timestamp failed to parse), the status is `PASS` —
unparseable timestamp data alone can never produce `FAIL`. -/
theorem unparseable_gap_passes (pd : String → Option Int) (data : List BackupRecord)
    (hne : data ≠ []) (hgap : (analyzeBackups pd (some data)).gapHours = none) :
    (analyzeBackups pd (some data)).status = BackupStatus.PASS := by
  cases data with
  | nil => exact absurd rfl hne
  | cons x xs =>
    rw [backup_status_eq, hgap]
    rfl

/-- Witness for C10: a single record with an unparseable timestamp. -/
theorem unparseable_gap_passes_witness :
    (analyzeBackups (fun _ => none) (some [⟨"garbage", "", "backup failed"⟩])).status =
      BackupStatus.PASS :=
  unparseable_gap_passes (fun _ => none) [⟨"garbage", "", "backup failed"⟩]
    (by decide) (by decide)

/-! ## C7: totality and well-formed shapes -/

theorem sqlRowFinding_type (r : SqlRecord) :
    (sqlRowFinding r).type = Severity.CRITICAL ∨ (sqlRowFinding r).type = Severity.HIGH ∨
      (sqlRowFinding r).type = Severity.MEDIUM := by
  unfold sqlRowFinding
  by_cases h1 : strContains (jsToLower r.Finding) "backups not performed" <;>
    by_cases h2 : strContains (jsToLower r.Finding) "corruption check" <;>
    simp [h1, h2]

theorem applyCls_ne_unknown :
    ∀ (a : Severity) (c : Option Severity),
      a ≠ Severity.UNKNOWN → applyCls a c ≠ Severity.UNKNOWN := by decide

theorem sql_foldl_risk_ne_unknown (l : List SqlRecord) :
    ∀ a : Severity, a ≠ Severity.UNKNOWN →
      l.foldl sqlRiskStep a ≠ Severity.UNKNOWN := by
  induction l with
  | nil => intro a h; exact h
  | cons x xs ih =>
    intro a h
    simp only [List.foldl_cons]
    refine ih _ ?_
    rw [sqlRiskStep_eq_applyCls]
    exact applyCls_ne_unknown a (sqlClass x) h

theorem ad_foldl_risk_ne_unknown (l : List AdRecord) :
    ∀ a : Severity, a ≠ Severity.UNKNOWN →
      l.foldl adRiskStep a ≠ Severity.UNKNOWN := by
  induction l with
  | nil => intro a h; exact h
  | cons x xs ih =>
    intro a h
    simp only [List.foldl_cons]
    refine ih _ ?_
    unfold adRiskStep
    by_cases hm : adMatches x <;> simp [hm, h]

/-- C7: each classifier is a total function of its (possibly `null`) input
and returns a verdict of its declared shape: SQL findings carry only
`CRITICAL`/`HIGH`/`MEDIUM` severities and the risk is `UNKNOWN` exactly for
`null`/empty input; AD findings are all `CRITICAL` with the same risk rule;
the backup status is `UNKNOWN` exactly for `null`/empty input and the
failure count never exceeds the number of records. -/
theorem classifiers_total_well_formed (pd : String → Option Int)
    (sqlData : Option (List SqlRecord)) (adData : Option (List AdRecord))
    (backupData : Option (List BackupRecord)) :
    (∀ f ∈ (analyzeSQL sqlData).findings,
      f.type = Severity.CRITICAL ∨ f.type = Severity.HIGH ∨ f.type = Severity.MEDIUM) ∧
    ((analyzeSQL sqlData).risk = Severity.UNKNOWN ↔ sqlData = none ∨ sqlData = some []) ∧
    (∀ f ∈ (analyzeAD adData).findings, f.type = Severity.CRITICAL) ∧
    ((analyzeAD adData).risk = Severity.UNKNOWN ↔ adData = none ∨ adData = some []) ∧
    ((analyzeBackups pd backupData).status = BackupStatus.UNKNOWN ↔
      backupData = none ∨ backupData = some []) ∧
    (analyzeBackups pd backupData).failCount ≤
      (match backupData with | none => 0 | some l => l.length) := by
  refine ⟨?_, ?_, ?_, ?_, ?_, ?_⟩
  · match sqlData with
    | none => simp [analyzeSQL]
    | some [] => simp [analyzeSQL]
    | some (x :: xs) =>
      intro f hf
      have hfind : (analyzeSQL (some (x :: xs))).findings =
          (x :: xs).filterMap sqlFindingOpt := by
        simp only [analyzeSQL, List.isEmpty_cons, Bool.false_eq_true, if_false]
        exact sql_foldl_snd (x :: xs) (Severity.LOW, [])
      rw [hfind] at hf
      obtain ⟨r, _, hr⟩ := List.mem_filterMap.mp hf
      unfold sqlFindingOpt at hr
      by_cases hact : sqlActionable r
      · rw [if_pos hact] at hr
        cases hr
        exact sqlRowFinding_type r
      · rw [if_neg hact] at hr
        cases hr
  · match sqlData with
    | none => simp [analyzeSQL]
    | some [] => simp [analyzeSQL]
    | some (x :: xs) =>
      have hrisk : (analyzeSQL (some (x :: xs))).risk =
          (x :: xs).foldl sqlRiskStep Severity.LOW := by
        simp only [analyzeSQL, List.isEmpty_cons, Bool.false_eq_true, if_false]
        exact sql_foldl_fst (x :: xs) (Severity.LOW, [])
      rw [hrisk]
      constructor
      · intro hcon
        exact absurd hcon (sql_foldl_risk_ne_unknown (x :: xs) Severity.LOW (by simp))
      · intro hcon
        rcases hcon with h | h <;> simp at h
  · match adData with
    | none => simp [analyzeAD]
    | some [] => simp [analyzeAD]
    | some (x :: xs) =>
      intro f hf
      have hfind : (analyzeAD (some (x :: xs))).findings =
          ((x :: xs).filter (fun r => adMatches r)).map adFinding := by
        simp only [analyzeAD, List.isEmpty_cons, Bool.false_eq_true, if_false]
        exact ad_foldl_snd (x :: xs) (Severity.LOW, [])
      rw [hfind] at hf
      obtain ⟨r, _, hr⟩ := List.mem_map.mp hf
      rw [← hr]
      rfl
  · match adData with
    | none => simp [analyzeAD]
    | some [] => simp [analyzeAD]
    | some (x :: xs) =>
      have hrisk : (analyzeAD (some (x :: xs))).risk =
          (x :: xs).foldl adRiskStep Severity.LOW := by
        simp only [analyzeAD, List.isEmpty_cons, Bool.false_eq_true, if_false]
        exact ad_foldl_fst (x :: xs) (Severity.LOW, [])
      rw [hrisk]
      constructor
      · intro hcon
        exact absurd hcon (ad_foldl_risk_ne_unknown (x :: xs) Severity.LOW (by simp))
      · intro hcon
        rcases hcon with h | h <;> simp at h
  · match backupData with
    | none => simp [analyzeBackups, emptyBackupVerdict]
    | some [] => simp [analyzeBackups, emptyBackupVerdict]
    | some (x :: xs) =>
      rw [backup_status_eq]
      constructor
      · intro hcon
        by_cases hc : jsGtQ (analyzeBackups pd (some (x :: xs))).gapHours 24 = true
        · rw [if_pos hc] at hcon; cases hcon
        · rw [if_neg hc] at hcon; cases hcon
      · rintro (hcon | hcon) <;> cases hcon
  · match backupData with
    | none => exact Nat.le_refl 0
    | some [] => exact Nat.le_refl 0
    | some (x :: xs) =>
      show (analyzeBackups pd (some (x :: xs))).failCount ≤ (x :: xs).length
      rw [backup_failure_count_spec]
      exact List.countP_le_length _

/-- Witness for C7: the membership hypothesis discharged on a concrete
critical SQL finding. -/
theorem classifiers_total_well_formed_witness :
    (sqlRowFinding ⟨"10", "Backups not performed", "", "HR"⟩).type = Severity.CRITICAL ∨
    (sqlRowFinding ⟨"10", "Backups not performed", "", "HR"⟩).type = Severity.HIGH ∨
    (sqlRowFinding ⟨"10", "Backups not performed", "", "HR"⟩).type = Severity.MEDIUM :=
  (classifiers_total_well_formed (fun _ => none)
      (some [⟨"10", "Backups not performed", "", "HR"⟩]) none none).1
    (sqlRowFinding ⟨"10", "Backups not performed", "", "HR"⟩) (by decide)

/-! ## C8: empty inputs are UNKNOWN and fuse to LOW -/

/-- C8: each classifier maps an empty input sequence to an `UNKNOWN`
verdict with no findings, and fusing three `UNKNOWN` verdicts (backup
status `UNKNOWN`) gives overall `LOW` — never `CRITICAL` and never an
error (the functions are total). -/
theorem empty_inputs_fuse_low (pd : String → Option Int) :
    analyzeSQL (some []) = { risk := Severity.UNKNOWN, findings := [] } ∧
    analyzeAD (some []) = { risk := Severity.UNKNOWN, findings := [] } ∧
    analyzeBackups pd (some []) = emptyBackupVerdict ∧
    emptyBackupVerdict.status = BackupStatus.UNKNOWN ∧
    fuseOverall Severity.UNKNOWN Severity.UNKNOWN BackupStatus.UNKNOWN = Severity.LOW ∧
    (runAudit pd (some []) (some []) (some [])).overall = Severity.LOW :=
  ⟨rfl, rfl, rfl, rfl, rfl, rfl⟩

/-! ## C9: remediation plan structure -/

/-- Fixed priority rank of the plan entries. -/
def planRank : PlanItem → Nat
  | PlanItem.emergencyBackupRun => 0
  | PlanItem.lockDownAdminAccounts => 1
  | PlanItem.runDbccCheckdb => 2
  | PlanItem.scheduleQuarterlyReview => 3

/-- C9 counterexample: a MEDIUM-only SQL input gives a non-CRITICAL overall
risk, yet the plan is the SQL item followed by the fallback — not a single
fallback item "instead of" the priority items. -/
theorem remediation_plan_counterexample :
    (runAudit (fun _ => none) (some [⟨"10", "slow queries", "", ""⟩]) none none).overall ≠
      Severity.CRITICAL ∧
    remediationPlan (runAudit (fun _ => none) (some [⟨"10", "slow queries", "", ""⟩])
        none none) =
      [PlanItem.runDbccCheckdb, PlanItem.scheduleQuarterlyReview] := by decide

/-- C9 amended: the plan lists items in the fixed priority order
(backup-failure, then AD, then SQL, then fallback); each priority item is
present iff its condition holds; the fallback is present iff the overall
risk is not `CRITICAL` — in addition to, not instead of, the other items —
and it is the sole item when no priority item triggered. -/
theorem remediation_plan_structure (rep : Report) :
    (remediationPlan rep).Pairwise (fun i j => planRank i < planRank j) ∧
    (PlanItem.emergencyBackupRun ∈ remediationPlan rep ↔
      rep.backup.status = BackupStatus.FAIL) ∧
    (PlanItem.lockDownAdminAccounts ∈ remediationPlan rep ↔ rep.ad.findings ≠ []) ∧
    (PlanItem.runDbccCheckdb ∈ remediationPlan rep ↔ rep.sql.findings ≠ []) ∧
    (PlanItem.scheduleQuarterlyReview ∈ remediationPlan rep ↔
      rep.overall ≠ Severity.CRITICAL) ∧
    (rep.overall ≠ Severity.CRITICAL → rep.backup.status ≠ BackupStatus.FAIL →
      rep.ad.findings = [] → rep.sql.findings = [] →
      remediationPlan rep = [PlanItem.scheduleQuarterlyReview]) := by
  unfold remediationPlan
  by_cases h1 : rep.backup.status = BackupStatus.FAIL <;>
    by_cases h2 : rep.ad.findings = [] <;>
    by_cases h3 : rep.sql.findings = [] <;>
    by_cases h4 : rep.overall = Severity.CRITICAL <;>
    simp [h1, h2, h3, h4, planRank]

/-- Witness for C9 at the all-`UNKNOWN` report, discharging the four
hypotheses of the sole-fallback conjunct. -/
theorem remediation_plan_structure_witness :
    remediationPlan (runAudit (fun _ => none) none none none) =
      [PlanItem.scheduleQuarterlyReview] :=
  (remediation_plan_structure (runAudit (fun _ => none) none none none)).2.2.2.2.2
    (by decide) (by decide) (by decide) (by decide)

end DataFortress
